import Mathlib

/-!
Shallow embedding of `flintrock.py` (Nyansa/flintrock), covering the parts of
the program that the verified claims are about:

* the EC2 data model (instances, states, tags) and `ClusterInfo`;
* `get_cluster_instances_ec2` (cluster lookup with master/slave split);
* the existence pre-check at the top of `launch_ec2`, plus an abstract model
  of the provider mutations `launch_ec2` performs (security-group calls,
  `run_instances` requests, role tagging, `ClusterInfo` construction);
* the security-group rule-authorization loops of
  `get_or_create_ec2_security_groups`;
* `get_cluster_state_ec2` and `print_cluster_info_ec2`;
* the zero-node pre-checks of `destroy_ec2`, `stop_ec2` and `start_ec2`;
* the SSH connect-retry loop of `get_ssh_client`;
* the template renderer `get_formatted_template` (Python `str.format_map`
  with a `__missing__` fallback that preserves unknown placeholders);
* an event-trace model of the control flow of `launch_ec2`, used for the
  ordering guarantees (all VMs running before `ClusterInfo`, all nodes
  provisioned before `configure_master`, `configure_master` before
  `health_check`).

Python exceptions are modelled with `Option`/`Except`; the unbounded loops
(`while True` in `launch_ec2`/`get_ssh_client`) are modelled with explicit
fuel, where running out of fuel (`none`) means the loop is still running.
-/

namespace Flintrock

/-! ## EC2 data model -/

/-- EC2 instance lifecycle states (`instance.state` in boto). -/
inductive Ec2InstState
  | pending
  | running
  | stopping
  | stopped
  | terminated
deriving DecidableEq

/-- The string boto exposes as `instance.state`. -/
def ec2StateName : Ec2InstState → String
  | .pending => "pending"
  | .running => "running"
  | .stopping => "stopping"
  | .stopped => "stopped"
  | .terminated => "terminated"

/-- An EC2 instance as observed through boto: id, state, public DNS name and tags. -/
structure Ec2Instance where
  id : String
  state : Ec2InstState
  publicDnsName : String
  tags : List (String × String)
deriving DecidableEq

/-- Dictionary lookup on an instance's tag mapping (`instance.tags[key]`);
`none` models Python's `KeyError`. -/
def tagLookup (tags : List (String × String)) (key : String) : Option String :=
  match tags.find? (fun kv => kv.fst = key) with
  | some kv => some kv.snd
  | none => none

/-- The value of an instance's `flintrock-role` tag, when present. -/
def roleTag (i : Ec2Instance) : Option String :=
  tagLookup i.tags "flintrock-role"

/-- The intra-cluster SSH key pair produced by `generate_ssh_key_pair`
(the `KeyPair` namedtuple: public and private key text). -/
structure KeyPair where
  public : String
  privateKey : String
deriving DecidableEq

/-- The `ClusterInfo` namedtuple of flintrock.py (lines 112-120).
`ssh_key_pair` is an `Option` because `start_ec2` builds a `ClusterInfo`
with `ssh_key_pair=None`. -/
structure ClusterInfo where
  name : String
  ssh_key_pair : Option KeyPair
  master_host : String
  slave_hosts : List String
  spark_scratch_dir : String
  spark_master_opts : String
deriving DecidableEq

/-! ## Cluster lookup: `get_cluster_instances_ec2` (flintrock.py lines 786-810) -/

/-- Failure modes of `get_cluster_instances_ec2`: the raised `ClusterNotFound`,
a `KeyError` from `i.tags['flintrock-role']` on an untagged instance, and the
`IndexError` from the unguarded `[0]` when no instance is master-tagged. -/
inductive LookupErr
  | clusterNotFound
  | keyError
  | indexError
deriving DecidableEq

/-- `get_cluster_instances_ec2`: raises `ClusterNotFound` on an empty lookup;
otherwise takes the first instance whose `flintrock-role` tag is `'master'`
(the unguarded `[0]` raises `IndexError` when there is none) and returns as
slaves every instance whose `flintrock-role` tag differs from `'master'`. -/
def get_cluster_instances_ec2 (cluster_instances : List Ec2Instance) :
    Except LookupErr (Ec2Instance × List Ec2Instance) :=
  if cluster_instances.isEmpty then .error .clusterNotFound
  else if cluster_instances.any (fun i => (roleTag i).isNone) then .error .keyError
  else
    match cluster_instances.filter (fun i => decide (roleTag i = some "master")) with
    | [] => .error .indexError
    | m :: _ =>
        .ok (m, cluster_instances.filter (fun i => decide (roleTag i ≠ some "master")))

/-! ## The `launch_ec2` existence pre-check and provider-mutation model
(flintrock.py lines 517-613) -/

/-- Outcome of the `try/except ClusterNotFound/else` block at the top of
`launch_ec2`: proceed, `sys.exit` with a code and message, or an exception
from the lookup propagating out unhandled. -/
inductive PrecheckResult
  | proceed
  | exitWith (code : Nat) (msg : String)
  | raiseErr (e : LookupErr)
deriving DecidableEq

/-- Lines 517-525 of flintrock.py: `ClusterNotFound` means the name is free and
launch proceeds; a successful lookup means the cluster exists, so launch prints
`Cluster already exists: <name>` and exits with code 1; any other lookup
exception propagates unhandled. -/
def launch_precheck (cluster_name : String) (existing : List Ec2Instance) :
    PrecheckResult :=
  match get_cluster_instances_ec2 existing with
  | .error .clusterNotFound => .proceed
  | .error e => .raiseErr e
  | .ok _ => .exitWith 1 ("Cluster already exists: " ++ cluster_name)

/-- The `min_count`/`max_count` pair passed to `connection.run_instances`. -/
structure RunRequest where
  minCount : Nat
  maxCount : Nat
deriving DecidableEq

/-- Lines 566 and 580-586 of flintrock.py: `reservation.instances[0]` is the
master, the rest are slaves; `ClusterInfo` takes the master's public DNS name
and the slaves' public DNS names. `none` models the `IndexError` on an empty
reservation (impossible for a real reservation of `num_slaves + 1 ≥ 1` VMs). -/
def clusterInfoFromReservation (cluster_name : String) (kp : KeyPair)
    (instances : List Ec2Instance) : Option ClusterInfo :=
  match instances with
  | [] => none
  | master_instance :: slave_instances =>
      some
        { name := cluster_name
          ssh_key_pair := some kp
          master_host := master_instance.publicDnsName
          slave_hosts := slave_instances.map (fun i => i.publicDnsName)
          spark_scratch_dir := "/mnt/spark"
          spark_master_opts := "" }

/-- Observable provider effects of one `launch_ec2` call: the pre-check
outcome, how many times `get_or_create_ec2_security_groups` ran, the
`run_instances` requests issued, the `flintrock-role` tags applied
(instance id paired with role), and the `ClusterInfo` built. -/
structure LaunchModel where
  precheck : PrecheckResult
  sgCalls : Nat
  runRequests : List RunRequest
  roleTags : List (String × String)
  clusterInfo : Option ClusterInfo
deriving DecidableEq

/-- Provider-mutation model of `launch_ec2` (flintrock.py lines 517-586):
if the pre-check does not proceed, nothing is mutated; otherwise security
groups are ensured once, one `run_instances` request for `num_slaves + 1` VMs
is issued (with `min_count = max_count`), the first returned instance is
tagged `master` and the rest `slave`, and `ClusterInfo` is built from the
reservation. `launched` stands for the instances the provider returned. -/
def launch_ec2_model (cluster_name : String) (existing : List Ec2Instance)
    (num_slaves : Nat) (launched : List Ec2Instance) (kp : KeyPair) :
    LaunchModel :=
  match launch_precheck cluster_name existing with
  | .proceed =>
      { precheck := .proceed
        sgCalls := 1
        runRequests := [⟨num_slaves + 1, num_slaves + 1⟩]
        roleTags :=
          match launched with
          | [] => []
          | master_instance :: slave_instances =>
              (master_instance.id, "master") ::
                slave_instances.map (fun i => (i.id, "slave"))
        clusterInfo := clusterInfoFromReservation cluster_name kp launched }
  | r =>
      { precheck := r
        sgCalls := 0
        runRequests := []
        roleTags := []
        clusterInfo := none }

/-! ## Zero-node pre-checks of `destroy_ec2`, `stop_ec2`, `start_ec2`
(flintrock.py lines 846-849, 1204-1207, 1097-1104) -/

/-- Either the command exits early (`sys.exit(code)` after printing `msg`)
or it proceeds with its work. -/
inductive CmdResult
  | exit (code : Nat) (msg : String)
  | proceed
deriving DecidableEq

/-- Lines 847-849: `destroy_ec2` prints `No such cluster.` and exits with
code 0 when the lookup returns no instances. -/
def destroy_ec2_precheck (cluster_instances : List Ec2Instance) : CmdResult :=
  if cluster_instances.isEmpty then .exit 0 "No such cluster." else .proceed

/-- Lines 1205-1207: `stop_ec2` prints `No such cluster.` and exits with
code 0 when the lookup returns no instances. -/
def stop_ec2_precheck (cluster_instances : List Ec2Instance) : CmdResult :=
  if cluster_instances.isEmpty then .exit 0 "No such cluster." else .proceed

/-- Lines 1097-1104: `start_ec2` catches `ClusterNotFound`, prints its message
(`No such cluster: <name>`, line 801) and exits with code 0. -/
def start_ec2_precheck (cluster_name : String) (existing : List Ec2Instance) :
    CmdResult :=
  match get_cluster_instances_ec2 existing with
  | .error .clusterNotFound => .exit 0 ("No such cluster: " ++ cluster_name)
  | _ => .proceed

/-! ## Security-group rule authorization
(`get_or_create_ec2_security_groups`, flintrock.py lines 377-495) -/

/-- The `SecurityGroupRule` namedtuple (lines 388-394). `src_group` carries the
name of the referenced group (the cluster group's self-reference), `cidr_ip`
a CIDR string; each rule uses exactly one of the two. -/
structure SGRule where
  ip_protocol : String
  from_port : Int
  to_port : Int
  src_group : Option String
  cidr_ip : Option String
deriving DecidableEq

/-- The client-ingress rule set authorized on the base `flintrock` group
(lines 426-445): TCP 22, TCP 8080-8081 and TCP 4040, all from the client's
`/32` CIDR. -/
def client_rules (flintrock_client_cidr : String) : List SGRule :=
  [⟨"tcp", 22, 22, none, some flintrock_client_cidr⟩,
   ⟨"tcp", 8080, 8081, none, some flintrock_client_cidr⟩,
   ⟨"tcp", 4040, 4040, none, some flintrock_client_cidr⟩]

/-- The intra-cluster rule set authorized on the cluster group
(lines 464-483): ICMP any, TCP 0-65535 and UDP 0-65535, source = the cluster
group itself. -/
def cluster_rules (cluster_group_name : String) : List SGRule :=
  [⟨"icmp", -1, -1, some cluster_group_name, none⟩,
   ⟨"tcp", 0, 65535, some cluster_group_name, none⟩,
   ⟨"udp", 0, 65535, some cluster_group_name, none⟩]

/-- A `boto.exception.EC2ResponseError` from `authorize`, classified by its
`error_code`: the duplicate-rule class (`InvalidPermission.Duplicate`) or any
other code. -/
inductive AuthError
  | duplicate
  | other (code : String)
deriving DecidableEq

/-- Provider behaviour of `group.authorize(**vars(rule))`: the provider raises
the duplicate-rule error exactly when the rule is already present, and
otherwise appends the rule. `inj` models any other provider failure the API
may raise for a given rule (its `error_code`). -/
def authorizeRule (inj : SGRule → Option String) (current : List SGRule)
    (r : SGRule) : Except AuthError (List SGRule) :=
  match inj r with
  | some code => .error (.other code)
  | none => if r ∈ current then .error .duplicate else .ok (current ++ [r])

/-- The `for rule in ...: try: authorize except ...` loops at lines 449-455 and
487-495: a duplicate-rule error is swallowed and iteration continues with the
remaining rules; any other `EC2ResponseError` is re-raised. -/
def authorizeRules (inj : SGRule → Option String) (current : List SGRule) :
    List SGRule → Except AuthError (List SGRule)
  | [] => .ok current
  | r :: rest =>
      match authorizeRule inj current r with
      | .ok cur => authorizeRules inj cur rest
      | .error .duplicate => authorizeRules inj current rest
      | .error e => .error e

/-- The rule sets currently authorized on the two security groups of a
cluster: the shared base `flintrock` group and the `flintrock-<name>`
cluster group. -/
structure SGState where
  baseRules : List SGRule
  clusterRules : List SGRule
deriving DecidableEq

/-- Rule-authorization behaviour of `get_or_create_ec2_security_groups`
(lines 377-495): authorize the client-ingress rules on the base group, then
the intra-cluster rules on the cluster group, with per-group error injections
`injBase`/`injCluster` for non-duplicate provider failures. Group creation
itself (create-if-missing, lines 414-418 and 458-462) does not affect the
rule sets and is not modelled. -/
def get_or_create_ec2_security_groups (injBase injCluster : SGRule → Option String)
    (cluster_name flintrock_client_cidr : String) (st : SGState) :
    Except AuthError SGState :=
  match authorizeRules injBase st.baseRules (client_rules flintrock_client_cidr) with
  | .error e => .error e
  | .ok base =>
      match authorizeRules injCluster st.clusterRules
          (cluster_rules ("flintrock-" ++ cluster_name)) with
      | .error e => .error e
      | .ok cl => .ok ⟨base, cl⟩

/-- Pure description of what the authorization loop does when no non-duplicate
provider error occurs: append, in order, exactly the rules not already
present. -/
def addNewRules (current toAdd : List SGRule) : List SGRule :=
  toAdd.foldl (fun c r => if r ∈ c then c else c ++ [r]) current

/-! ## Aggregated cluster state and describe output
(`get_cluster_state_ec2` lines 891-903, `print_cluster_info_ec2` lines 906-918) -/

/-- `get_cluster_state_ec2`: collect the set of member states; if there is
exactly one distinct state return it, otherwise return `inconsistent`. -/
def get_cluster_state_ec2 (cluster_instances : List Ec2Instance) : String :=
  match (cluster_instances.map (fun i => i.state)).dedup with
  | [s] => ec2StateName s
  | _ => "inconsistent"

/-- `print_cluster_info_ec2`, modelled as the list of strings it prints:
the cluster name, the aggregated state, the node count, and - only when the
aggregated state is `running` - one joined block listing the node hostnames
(lines 917-918). -/
def print_cluster_info_ec2 (cluster_name : String)
    (cluster_instances : List Ec2Instance) : List String :=
  [cluster_name ++ ":",
   "  state: " ++ get_cluster_state_ec2 cluster_instances,
   "  node-count: " ++ toString cluster_instances.length] ++
  (if get_cluster_state_ec2 cluster_instances = "running" then
    [String.intercalate "\n    - "
      ("  nodes:" :: cluster_instances.map (fun i => i.publicDnsName))]
  else [])

/-! ## SSH connect-retry loop (`get_ssh_client`, flintrock.py lines 654-694) -/

/-- Outcome of one `client.connect` attempt: success, `socket.timeout`,
`socket.error` with an errno, `AuthenticationException`, or some other
exception (which the loop does not catch at all). -/
inductive ConnectOutcome
  | connected
  | timeout
  | sockErr (errno : Nat)
  | authFail
  | otherExc (name : String)
deriving DecidableEq

/-- The failure kinds the `while True` loop retries after a 5-second sleep:
`socket.timeout`, `socket.error` with errno 61 (connection refused; any other
errno is re-raised) and `AuthenticationException`. -/
def retriableOutcome : ConnectOutcome → Bool
  | .timeout => true
  | .sockErr errno => errno = 61
  | .authFail => true
  | _ => false

/-- Result of the connect loop: connected after some number of failed
attempts and seconds slept, or an exception propagated out. -/
inductive SshResult
  | connectedAfter (failures : Nat) (sleptSeconds : Nat)
  | raised (out : ConnectOutcome)
deriving DecidableEq

/-- The `while True` retry loop of `get_ssh_client`: attempt `attempt` has
outcome `env attempt`; a retriable failure sleeps 5 seconds and retries,
success breaks the loop, anything else is raised. Fuel exhaustion (`none`)
means the loop is still running. -/
def get_ssh_client_loop (env : Nat → ConnectOutcome) :
    Nat → Nat → Nat → Option SshResult
  | 0, _, _ => none
  | fuel + 1, attempt, slept =>
      match env attempt with
      | .connected => some (.connectedAfter attempt slept)
      | out =>
          if retriableOutcome out then
            get_ssh_client_loop env fuel (attempt + 1) (slept + 5)
          else some (.raised out)

/-! ## Template renderer (`get_formatted_template`, flintrock.py lines 129-137)

The source formats a template with `str.format_map(TemplateDict(**mapping))`,
where `TemplateDict.__missing__` returns `'{' + key + '}'`, so unknown
placeholders survive verbatim. The scanner below is the corresponding
single-pass parser over the template's characters: `{{`/`}}` are brace
escapes, `{key}` is a field, a stray brace or a brace inside a field name is
a `ValueError` (`none`), and an empty or all-digit field name is a positional
field, which `format_map` (called with no positional arguments) rejects with
an `IndexError` (`none`). Conversion/format-spec syntax (`{k!r}`, `{k:>8}`)
is not used by the repository's templates and is not modelled. -/

/-- Scanner state: plain text, just after `{`, inside a field name (with the
name's characters accumulated so far), or just after `}`. -/
inductive FmtState
  | normal
  | sawOpen
  | field (acc : List Char)
  | sawClose
deriving DecidableEq

/-- A field name Python treats as positional rather than as a mapping key:
empty or made of digits only. -/
def positionalKey (acc : List Char) : Bool :=
  acc.isEmpty || acc.all (fun c => c.isDigit)

/-- The text substituted for the field `key`: the binding when present,
otherwise the `TemplateDict.__missing__` fallback `'{' + key + '}'`. -/
def templateReplacement (m : String → Option String) (key : String) : String :=
  match m key with
  | some v => v
  | none => "\x7b" ++ key ++ "\x7d"

/-- Single pass of `str.format_map` over the template's characters. Substituted
text is spliced into the output as-is; only the original template characters
drive the scanner, so there is no recursive expansion. -/
def formatScan (m : String → Option String) : FmtState → List Char → Option (List Char)
  | .normal, [] => some []
  | .sawOpen, [] => none
  | .field _, [] => none
  | .sawClose, [] => none
  | .normal, c :: rest =>
      if c = '{' then formatScan m .sawOpen rest
      else if c = '}' then formatScan m .sawClose rest
      else (formatScan m .normal rest).map (fun t => c :: t)
  | .sawOpen, c :: rest =>
      if c = '{' then (formatScan m .normal rest).map (fun t => '{' :: t)
      else if c = '}' then none
      else formatScan m (.field [c]) rest
  | .field acc, c :: rest =>
      if c = '}' then
        if positionalKey acc then none
        else
          (formatScan m .normal rest).map
            (fun t => (templateReplacement m (String.mk acc)).data ++ t)
      else if c = '{' then none
      else formatScan m (.field (acc ++ [c])) rest
  | .sawClose, c :: rest =>
      if c = '}' then (formatScan m .normal rest).map (fun t => '}' :: t)
      else none

/-- `get_formatted_template` on template text already read from disk:
format the text against the binding mapping. -/
def get_formatted_template (template : String) (m : String → Option String) :
    Option String :=
  (formatScan m .normal template.data).map String.mk

/-! ## Event-trace model of `launch_ec2`'s control flow
(flintrock.py lines 517-634) -/

/-- Index of the first instance whose currently observed state is not
`running` - the instance the scan at lines 555-564 stops at. `counts i` is
the number of `instance.update()` calls instance `i` has received, and
`env i c` its observed state after `c` updates. -/
def firstNotRunningIdx (env : Nat → Nat → Ec2InstState) (counts : List Nat) :
    Option Nat :=
  (List.range counts.length).find?
    (fun i => !(decide (env i (counts.getD i 0) = Ec2InstState.running)))

/-- The `while True` wait loop at lines 555-564: scan the instances in order;
on the first non-running one, update it (and sleep 3 s) and restart the scan;
exit once a full scan sees every instance running. Returns the per-instance
update counts at exit; `none` means the loop is still running when the fuel
runs out. -/
def waitAllRunning (env : Nat → Nat → Ec2InstState) :
    Nat → List Nat → Option (List Nat)
  | 0, _ => none
  | fuel + 1, counts =>
      match firstNotRunningIdx env counts with
      | none => some counts
      | some j => waitAllRunning env fuel (counts.set j (counts.getD j 0 + 1))

/-- The externally observable steps of `launch_ec2`, in program order. -/
inductive LaunchEvent
  | precheckCluster
  | ensureSecurityGroups
  | runInstancesReq (count : Nat)
  | sleepSec (n : Nat)
  | instanceRunning (i : Nat)
  | tagMaster
  | tagSlaves
  | buildClusterInfo
  | provisionDone (i : Nat)
  | joinAll
  | configureMaster (m : Nat)
  | healthCheck (m : Nat)
deriving DecidableEq

/-- The event trace of one `launch_ec2` run that goes through to the health
checks: pre-check, ensure security groups, one `run_instances` request for
`num_slaves + 1` VMs, the 10-second eventual-consistency sleep, the wait loop
(whose successful exit confirms every instance running), tagging, building
`ClusterInfo`, the parallel per-node provisioning fan-out (whose completions
arrive in an arbitrary order `perm`), the join, and then per module
`configure_master`, a 30-second sleep, and `health_check`. `none` when the
wait loop never terminates within `fuel`. -/
def launchTrace (num_slaves num_modules : Nat) (env : Nat → Nat → Ec2InstState)
    (fuel : Nat) (perm : List Nat) : Option (List LaunchEvent) :=
  match waitAllRunning env fuel (List.replicate (num_slaves + 1) 0) with
  | none => none
  | some _ =>
      some
        ([.precheckCluster, .ensureSecurityGroups,
          .runInstancesReq (num_slaves + 1), .sleepSec 10] ++
         (List.range (num_slaves + 1)).map .instanceRunning ++
         [.tagMaster, .tagSlaves, .buildClusterInfo] ++
         perm.map .provisionDone ++
         [.joinAll] ++
         (List.range num_modules).flatMap
           (fun m => [.configureMaster m, .sleepSec 30, .healthCheck m]))

/-- `a` occurs strictly before `b` in the trace `tr`. -/
def occursBefore (tr : List LaunchEvent) (a b : LaunchEvent) : Prop :=
  ∃ l₁ l₂ l₃, tr = l₁ ++ a :: (l₂ ++ b :: l₃)

/-! ## Helper lemmas about the cluster lookup -/

theorem isEmpty_false_of_ne_nil {α} {l : List α} (h : l ≠ []) :
    l.isEmpty = false := by
  simpa [List.isEmpty_iff] using h

theorem any_isNone_false {l : List Ec2Instance}
    (htags : ∀ i ∈ l, (roleTag i).isSome) :
    (l.any fun i => (roleTag i).isNone) = false := by
  simp only [List.any_eq_false]
  intro i hi
  rcases Option.isSome_iff_exists.mp (htags i hi) with ⟨v, hv⟩
  simp [hv]

theorem get_cluster_instances_cons_filter {l : List Ec2Instance}
    {m : Ec2Instance} {rest : List Ec2Instance}
    (hne : l ≠ []) (htags : ∀ i ∈ l, (roleTag i).isSome)
    (hfe : l.filter (fun i => decide (roleTag i = some "master")) = m :: rest) :
    get_cluster_instances_ec2 l =
      .ok (m, l.filter (fun i => decide (roleTag i ≠ some "master"))) := by
  unfold get_cluster_instances_ec2
  simp [isEmpty_false_of_ne_nil hne, any_isNone_false htags, hfe]

theorem get_cluster_instances_no_master {l : List Ec2Instance}
    (hne : l ≠ []) (htags : ∀ i ∈ l, (roleTag i).isSome)
    (hnom : ∀ i ∈ l, roleTag i ≠ some "master") :
    get_cluster_instances_ec2 l = .error .indexError := by
  have hfe : l.filter (fun i => decide (roleTag i = some "master")) = [] := by
    rw [List.filter_eq_nil_iff]
    intro i hi
    simpa using hnom i hi
  unfold get_cluster_instances_ec2
  simp [isEmpty_false_of_ne_nil hne, any_isNone_false htags, hfe]

theorem get_cluster_instances_ok_of_master {l : List Ec2Instance}
    (hne : l ≠ []) (htags : ∀ i ∈ l, (roleTag i).isSome)
    (hm : ∃ i ∈ l, roleTag i = some "master") :
    ∃ m slaves, get_cluster_instances_ec2 l = .ok (m, slaves) := by
  rcases hm with ⟨i, hi, hrole⟩
  have hmem : i ∈ l.filter (fun i => decide (roleTag i = some "master")) :=
    List.mem_filter.mpr ⟨hi, by simpa using hrole⟩
  rcases hfe : l.filter (fun i => decide (roleTag i = some "master")) with _ | ⟨m, rest⟩
  · rw [hfe] at hmem
    cases hmem
  · exact ⟨m, _, get_cluster_instances_cons_filter hne htags hfe⟩

theorem get_cluster_instances_ok_elim {l : List Ec2Instance}
    {m : Ec2Instance} {slaves : List Ec2Instance}
    (hok : get_cluster_instances_ec2 l = .ok (m, slaves)) :
    roleTag m = some "master" ∧
    (l.filter (fun i => decide (roleTag i = some "master"))).head? = some m ∧
    slaves = l.filter (fun i => decide (roleTag i ≠ some "master")) := by
  unfold get_cluster_instances_ec2 at hok
  by_cases hemp : l.isEmpty
  · simp [hemp] at hok
  · simp only [hemp, Bool.false_eq_true, if_false] at hok
    by_cases hany : l.any fun i => (roleTag i).isNone
    · simp [hany] at hok
    · simp only [hany, Bool.false_eq_true, if_false] at hok
      rcases hfe : l.filter (fun i => decide (roleTag i = some "master")) with _ | ⟨m0, rest⟩
      · rw [hfe] at hok
        cases hok
      · rw [hfe] at hok
        injection hok with hok
        injection hok with h1 h2
        subst h1
        have hm0 : m0 ∈ l.filter (fun i => decide (roleTag i = some "master")) := by
          rw [hfe]; exact List.mem_cons_self _ _
        exact ⟨by simpa using (List.mem_filter.mp hm0).2, rfl, h2.symm⟩

theorem get_cluster_instances_ne_notFound {l : List Ec2Instance} (hne : l ≠ []) :
    get_cluster_instances_ec2 l ≠ .error .clusterNotFound := by
  unfold get_cluster_instances_ec2
  simp only [isEmpty_false_of_ne_nil hne, Bool.false_eq_true, if_false]
  split
  · simp
  · split <;> simp

theorem launch_precheck_nil (cluster_name : String) :
    launch_precheck cluster_name [] = .proceed := rfl

theorem launch_precheck_ne_proceed {cluster_name : String}
    {existing : List Ec2Instance} (hne : existing ≠ []) :
    launch_precheck cluster_name existing ≠ .proceed := by
  unfold launch_precheck
  rcases hg : get_cluster_instances_ec2 existing with e | pr
  · cases e
    · exact absurd hg (get_cluster_instances_ne_notFound hne)
    · simp
    · simp
  · simp

/-! ## Claim C10 -/

/-- C10: the cluster-lookup operation `get_cluster_instances_ec2` is total
only when some returned instance carries tag `flintrock-role = 'master'`:
given a non-empty instance list (whose members all carry the role tag) it
selects the first master-tagged instance as the master and returns as slaves
exactly the instances whose `flintrock-role` tag differs from `'master'`, so
any additional master-tagged instance appears in neither component; if the
list is non-empty but no instance is master-tagged, the unguarded `[0]`
index fails. -/
theorem get_cluster_instances_total_only_with_master
    (cluster_instances : List Ec2Instance)
    (hne : cluster_instances ≠ [])
    (htags : ∀ i ∈ cluster_instances, (roleTag i).isSome) :
    ((∀ i ∈ cluster_instances, roleTag i ≠ some "master") →
      get_cluster_instances_ec2 cluster_instances = .error .indexError) ∧
    ((∃ i ∈ cluster_instances, roleTag i = some "master") →
      ∃ m slaves, get_cluster_instances_ec2 cluster_instances = .ok (m, slaves)) ∧
    (∀ m slaves,
      get_cluster_instances_ec2 cluster_instances = .ok (m, slaves) →
      roleTag m = some "master" ∧
      (cluster_instances.filter
        (fun i => decide (roleTag i = some "master"))).head? = some m ∧
      slaves = cluster_instances.filter
        (fun i => decide (roleTag i ≠ some "master")) ∧
      (∀ j ∈ cluster_instances, roleTag j = some "master" → j ∉ slaves)) := by
  refine ⟨fun hnom => get_cluster_instances_no_master hne htags hnom,
    fun hm => get_cluster_instances_ok_of_master hne htags hm,
    fun m slaves hok => ?_⟩
  obtain ⟨h1, h2, h3⟩ := get_cluster_instances_ok_elim hok
  refine ⟨h1, h2, h3, fun j _ hrole hmem => ?_⟩
  rw [h3] at hmem
  have := (List.mem_filter.mp hmem).2
  simp at this
  exact this hrole

/-- C10 witness: a two-node cluster with a tagged master and a tagged slave
satisfies the hypotheses, and the lookup succeeds on it. -/
theorem get_cluster_instances_total_only_with_master_witness :
    (([⟨"i-0", Ec2InstState.running, "h0", [("flintrock-role", "master")]⟩,
       ⟨"i-1", Ec2InstState.running, "h1", [("flintrock-role", "slave")]⟩] :
        List Ec2Instance) ≠ []) ∧
    (∀ i ∈ ([⟨"i-0", Ec2InstState.running, "h0", [("flintrock-role", "master")]⟩,
             ⟨"i-1", Ec2InstState.running, "h1", [("flintrock-role", "slave")]⟩] :
        List Ec2Instance), (roleTag i).isSome) ∧
    ((∃ i ∈ ([⟨"i-0", Ec2InstState.running, "h0", [("flintrock-role", "master")]⟩,
              ⟨"i-1", Ec2InstState.running, "h1", [("flintrock-role", "slave")]⟩] :
        List Ec2Instance), roleTag i = some "master") →
      ∃ m slaves,
        get_cluster_instances_ec2
          [⟨"i-0", Ec2InstState.running, "h0", [("flintrock-role", "master")]⟩,
           ⟨"i-1", Ec2InstState.running, "h1", [("flintrock-role", "slave")]⟩] =
          .ok (m, slaves)) :=
  ⟨by decide, by decide,
    (get_cluster_instances_total_only_with_master _ (by decide) (by decide)).2.1⟩

/-! ## Claim C1 -/

/-- C1 counterexample: with one existing VM that is not master-tagged, the
lookup at the top of `launch_ec2` raises `IndexError` (the unguarded `[0]`),
which `launch_ec2` does not catch, so launch does not print
`Cluster already exists: myspark` and exit 1 as the claim states. -/
theorem launch_existing_cluster_counterexample :
    launch_precheck "myspark"
      [⟨"i-1", Ec2InstState.running, "host-1", [("flintrock-role", "slave")]⟩] =
      .raiseErr .indexError ∧
    launch_precheck "myspark"
      [⟨"i-1", Ec2InstState.running, "host-1", [("flintrock-role", "slave")]⟩] ≠
      .exitWith 1 "Cluster already exists: myspark" := by
  constructor
  · decide
  · decide

/-- C1 (amended): when the lookup for the cluster name returns at least one
VM, `launch_ec2` performs no provider mutation (no security-group call, no
`run_instances` request) and does not proceed; it exits with code 1 and the
message `Cluster already exists: <name>` provided every returned instance
carries the `flintrock-role` tag and at least one is tagged `master`
(otherwise the lookup itself raises and aborts the launch); when the lookup
yields zero nodes, launch proceeds. -/
theorem launch_existing_cluster_aborts
    (cluster_name : String) (existing : List Ec2Instance)
    (num_slaves : Nat) (launched : List Ec2Instance) (kp : KeyPair) :
    (existing = [] →
      (launch_ec2_model cluster_name existing num_slaves launched kp).precheck =
        .proceed) ∧
    (existing ≠ [] →
      (launch_ec2_model cluster_name existing num_slaves launched kp).sgCalls = 0 ∧
      (launch_ec2_model cluster_name existing num_slaves launched kp).runRequests = [] ∧
      (launch_ec2_model cluster_name existing num_slaves launched kp).precheck ≠
        .proceed) ∧
    (existing ≠ [] →
      (∀ i ∈ existing, (roleTag i).isSome) →
      (∃ i ∈ existing, roleTag i = some "master") →
      (launch_ec2_model cluster_name existing num_slaves launched kp).precheck =
        .exitWith 1 ("Cluster already exists: " ++ cluster_name)) := by
  refine ⟨?_, ?_, ?_⟩
  · rintro rfl
    simp [launch_ec2_model, launch_precheck_nil]
  · intro hne
    have hp : launch_precheck cluster_name existing ≠ .proceed :=
      launch_precheck_ne_proceed hne
    unfold launch_ec2_model
    rcases hq : launch_precheck cluster_name existing with _ | ⟨c, msg⟩ | e
    · exact absurd hq hp
    · simp
    · simp
  · intro hne htags hm
    obtain ⟨m, slaves, hok⟩ := get_cluster_instances_ok_of_master hne htags hm
    have hp : launch_precheck cluster_name existing =
        .exitWith 1 ("Cluster already exists: " ++ cluster_name) := by
      unfold launch_precheck
      rw [hok]
    unfold launch_ec2_model
    rw [hp]

/-- C1 witness: with an existing master-tagged VM, the launch model reports
`exitWith 1` and the already-exists message, and mutates nothing. -/
theorem launch_existing_cluster_aborts_witness :
    (([⟨"i-0", Ec2InstState.running, "h0", [("flintrock-role", "master")]⟩] :
        List Ec2Instance) ≠ []) ∧
    (launch_ec2_model "myspark"
        [⟨"i-0", Ec2InstState.running, "h0", [("flintrock-role", "master")]⟩]
        2 [] ⟨"pub", "priv"⟩).precheck =
      .exitWith 1 ("Cluster already exists: " ++ "myspark") :=
  ⟨by decide,
    (launch_existing_cluster_aborts "myspark"
      [⟨"i-0", Ec2InstState.running, "h0", [("flintrock-role", "master")]⟩]
      2 [] ⟨"pub", "priv"⟩).2.2 (by decide) (by decide) (by decide)⟩

/-! ## Claim C5 -/

/-- C5 counterexample: `destroy_ec2` on a zero-node lookup prints
`No such cluster.` and exits with code 0, not with a non-zero exit code as
the claim states. -/
theorem zero_node_destroy_exits_zero :
    destroy_ec2_precheck [] = .exit 0 "No such cluster." ∧
    ¬ ∃ code msg, destroy_ec2_precheck [] = .exit code msg ∧ code ≠ 0 := by
  refine ⟨rfl, ?_⟩
  rintro ⟨code, msg, h, hc⟩
  have h0 : destroy_ec2_precheck [] = .exit 0 "No such cluster." := rfl
  rw [h0] at h
  injection h with h1 h2
  exact hc h1.symm

/-- C5 (amended): for destroy, stop and start, a cluster lookup that yields
zero nodes terminates the command early with a user-visible message and exit
code 0 (not non-zero); for launch, the zero-node case lets the launch
proceed. -/
theorem zero_node_lookup_behaviour (cluster_name : String) :
    destroy_ec2_precheck [] = .exit 0 "No such cluster." ∧
    stop_ec2_precheck [] = .exit 0 "No such cluster." ∧
    start_ec2_precheck cluster_name [] =
      .exit 0 ("No such cluster: " ++ cluster_name) ∧
    launch_precheck cluster_name [] = .proceed :=
  ⟨rfl, rfl, rfl, rfl⟩

/-! ## Claim C4 -/

/-- C4: a successful launch with `num_slaves = N` requests exactly `N + 1`
VMs in one `run_instances` call (`min_count = max_count = N + 1`), the
first-returned instance becomes the master (it gets the `master` role tag and
its public DNS name becomes `master_host`), and the `ClusterInfo` built from
the reservation satisfies `master_host ∉ slave_hosts` and
`|slave_hosts| = N` (given that the provider returns `N + 1` instances with
pairwise distinct public DNS names). -/
theorem launch_vm_count_and_cluster_info
    (cluster_name : String) (num_slaves : Nat)
    (launched : List Ec2Instance) (kp : KeyPair)
    (hlen : launched.length = num_slaves + 1)
    (hnodup : (launched.map (fun i => i.publicDnsName)).Nodup) :
    (launch_ec2_model cluster_name [] num_slaves launched kp).runRequests =
      [⟨num_slaves + 1, num_slaves + 1⟩] ∧
    ∃ mi sis, launched = mi :: sis ∧
      (launch_ec2_model cluster_name [] num_slaves launched kp).roleTags =
        (mi.id, "master") :: sis.map (fun i => (i.id, "slave")) ∧
      ∃ ci, (launch_ec2_model cluster_name [] num_slaves launched kp).clusterInfo =
          some ci ∧
        ci.master_host = mi.publicDnsName ∧
        ci.slave_hosts = sis.map (fun i => i.publicDnsName) ∧
        ci.master_host ∉ ci.slave_hosts ∧
        ci.slave_hosts.length = num_slaves := by
  rcases launched with _ | ⟨mi, sis⟩
  · cases hlen
  · have hmod : launch_ec2_model cluster_name [] num_slaves (mi :: sis) kp =
        { precheck := .proceed
          sgCalls := 1
          runRequests := [⟨num_slaves + 1, num_slaves + 1⟩]
          roleTags := (mi.id, "master") :: sis.map (fun i => (i.id, "slave"))
          clusterInfo := some
            { name := cluster_name
              ssh_key_pair := some kp
              master_host := mi.publicDnsName
              slave_hosts := sis.map (fun i => i.publicDnsName)
              spark_scratch_dir := "/mnt/spark"
              spark_master_opts := "" } } := by
      unfold launch_ec2_model
      rw [launch_precheck_nil]
      rfl
    rw [List.map_cons, List.nodup_cons] at hnodup
    refine ⟨by rw [hmod], mi, sis, rfl, by rw [hmod], ?_⟩
    rw [hmod]
    refine ⟨_, rfl, rfl, rfl, fun hmem => hnodup.1 hmem, ?_⟩
    show (sis.map (fun i => i.publicDnsName)).length = num_slaves
    simp only [List.length_cons] at hlen
    simp only [List.length_map]
    omega

/-- C4 witness: a concrete launch of two slaves plus a master with distinct
hostnames satisfies the hypotheses and the conclusion. -/
theorem launch_vm_count_and_cluster_info_witness :
    (([⟨"i-0", Ec2InstState.running, "h0", []⟩,
       ⟨"i-1", Ec2InstState.running, "h1", []⟩,
       ⟨"i-2", Ec2InstState.running, "h2", []⟩] :
        List Ec2Instance).length = 2 + 1) ∧
    (launch_ec2_model "demo" [] 2
        [⟨"i-0", Ec2InstState.running, "h0", []⟩,
         ⟨"i-1", Ec2InstState.running, "h1", []⟩,
         ⟨"i-2", Ec2InstState.running, "h2", []⟩] ⟨"pub", "priv"⟩).runRequests =
      [⟨3, 3⟩] :=
  ⟨by decide,
    (launch_vm_count_and_cluster_info "demo" 2
      [⟨"i-0", Ec2InstState.running, "h0", []⟩,
       ⟨"i-1", Ec2InstState.running, "h1", []⟩,
       ⟨"i-2", Ec2InstState.running, "h2", []⟩] ⟨"pub", "priv"⟩
      (by decide) (by decide)).1⟩

/-! ## Helper lemmas about `dedup` and the state names -/

theorem dedup_eq_singleton_of_all_eq {α} [DecidableEq α] (l : List α) (a : α)
    (hne : l ≠ []) (hall : ∀ x ∈ l, x = a) : l.dedup = [a] := by
  induction l with
  | nil => cases hne rfl
  | cons x t ih =>
    have hxa : x = a := hall x (by simp)
    rcases t with _ | ⟨y, t'⟩
    · rw [hxa]
      simp
    · have hya : y = a := hall y (by simp)
      have ht : (y :: t').dedup = [a] :=
        ih (by simp) (fun z hz => hall z (List.mem_cons_of_mem _ hz))
      have hmem : x ∈ y :: t' := by
        rw [hxa, ← hya]
        exact List.mem_cons_self _ _
      rw [List.dedup_cons_of_mem hmem, ht]

theorem all_eq_of_dedup_eq_singleton {α} [DecidableEq α] {l : List α} {a : α}
    (h : l.dedup = [a]) : ∀ x ∈ l, x = a := by
  intro x hx
  have hmem : x ∈ l.dedup := List.mem_dedup.mpr hx
  rw [h] at hmem
  simpa using hmem

theorem ec2StateName_ne_inconsistent (s : Ec2InstState) :
    ec2StateName s ≠ "inconsistent" := by
  cases s <;> decide

/-! ## Claim C6 -/

/-- C6: for every non-empty list of member VMs, the aggregated cluster state
is `inconsistent` exactly when the members are in more than one distinct
state, and otherwise equals the (name of the) single state shared by all
members. -/
theorem cluster_state_inconsistent_iff (l : List Ec2Instance) (hne : l ≠ []) :
    (get_cluster_state_ec2 l = "inconsistent" ↔
      ∃ a ∈ l, ∃ b ∈ l, a.state ≠ b.state) ∧
    (∀ s, (∀ i ∈ l, i.state = s) → get_cluster_state_ec2 l = ec2StateName s) := by
  have hmapne : l.map (fun i => i.state) ≠ [] := by
    simpa using hne
  constructor
  · constructor
    · intro hinc
      by_contra hno
      push_neg at hno
      rcases l with _ | ⟨x, t⟩
      · cases hne rfl
      · have hall : ∀ y ∈ (x :: t).map (fun i => i.state), y = x.state := by
          intro y hy
          rcases List.mem_map.mp hy with ⟨i, hi, rfl⟩
          exact hno i hi x (by simp)
        have hd : ((x :: t).map (fun i => i.state)).dedup = [x.state] :=
          dedup_eq_singleton_of_all_eq _ _ (by simp) hall
        have : get_cluster_state_ec2 (x :: t) = ec2StateName x.state := by
          unfold get_cluster_state_ec2
          rw [hd]
        rw [this] at hinc
        exact ec2StateName_ne_inconsistent _ hinc
    · rintro ⟨a, ha, b, hb, hab⟩
      rcases hd : (l.map (fun i => i.state)).dedup with _ | ⟨s, _ | ⟨s', t⟩⟩
      · exact absurd ((List.dedup_eq_nil _).mp hd) hmapne
      · have hsa : a.state = s :=
          all_eq_of_dedup_eq_singleton hd _ (List.mem_map.mpr ⟨a, ha, rfl⟩)
        have hsb : b.state = s :=
          all_eq_of_dedup_eq_singleton hd _ (List.mem_map.mpr ⟨b, hb, rfl⟩)
        exact absurd (hsa.trans hsb.symm) hab
      · unfold get_cluster_state_ec2
        rw [hd]
  · intro s hs
    have hd : (l.map (fun i => i.state)).dedup = [s] := by
      refine dedup_eq_singleton_of_all_eq _ _ hmapne ?_
      intro y hy
      rcases List.mem_map.mp hy with ⟨i, hi, rfl⟩
      exact hs i hi
    unfold get_cluster_state_ec2
    rw [hd]

/-- C6 witness: one running and one stopped instance form a non-empty cluster
whose aggregated state is `inconsistent`, matching the two-distinct-states
characterization. -/
theorem cluster_state_inconsistent_iff_witness :
    (([⟨"i-0", Ec2InstState.running, "h0", []⟩,
       ⟨"i-1", Ec2InstState.stopped, "h1", []⟩] : List Ec2Instance) ≠ []) ∧
    (get_cluster_state_ec2
        [⟨"i-0", Ec2InstState.running, "h0", []⟩,
         ⟨"i-1", Ec2InstState.stopped, "h1", []⟩] = "inconsistent" ↔
      ∃ a ∈ ([⟨"i-0", Ec2InstState.running, "h0", []⟩,
              ⟨"i-1", Ec2InstState.stopped, "h1", []⟩] : List Ec2Instance),
        ∃ b ∈ ([⟨"i-0", Ec2InstState.running, "h0", []⟩,
                ⟨"i-1", Ec2InstState.stopped, "h1", []⟩] : List Ec2Instance),
          a.state ≠ b.state) :=
  ⟨by decide,
    (cluster_state_inconsistent_iff
      [⟨"i-0", Ec2InstState.running, "h0", []⟩,
       ⟨"i-1", Ec2InstState.stopped, "h1", []⟩] (by decide)).1⟩

/-! ## Claim C7 -/

/-- C7 counterexample: for a cluster whose aggregated state is `stopped`,
`print_cluster_info_ec2` prints only the cluster name, the state and the node
count - the node hostnames are not printed, contradicting the claim that all
four are printed regardless of the aggregated state. -/
theorem describe_output_counterexample :
    print_cluster_info_ec2 "demo"
        [⟨"i-1", Ec2InstState.stopped, "node-host-1", []⟩] =
      ["demo:", "  state: stopped", "  node-count: 1"] ∧
    "  nodes:\n    - node-host-1" ∉
      print_cluster_info_ec2 "demo"
        [⟨"i-1", Ec2InstState.stopped, "node-host-1", []⟩] := by
  constructor
  · rfl
  · decide

/-- C7 (amended): for every cluster it lists, describe prints the cluster
name, the aggregated state and the node count regardless of state, but the
node hostnames are printed only when the aggregated state is `running`. -/
theorem describe_prints_hostnames_only_when_running
    (cluster_name : String) (l : List Ec2Instance) :
    ((print_cluster_info_ec2 cluster_name l).take 3 =
      [cluster_name ++ ":",
       "  state: " ++ get_cluster_state_ec2 l,
       "  node-count: " ++ toString l.length]) ∧
    (get_cluster_state_ec2 l = "running" →
      print_cluster_info_ec2 cluster_name l =
        [cluster_name ++ ":",
         "  state: " ++ get_cluster_state_ec2 l,
         "  node-count: " ++ toString l.length,
         String.intercalate "\n    - "
           ("  nodes:" :: l.map (fun i => i.publicDnsName))]) ∧
    (get_cluster_state_ec2 l ≠ "running" →
      print_cluster_info_ec2 cluster_name l =
        [cluster_name ++ ":",
         "  state: " ++ get_cluster_state_ec2 l,
         "  node-count: " ++ toString l.length]) := by
  unfold print_cluster_info_ec2
  refine ⟨?_, ?_, ?_⟩
  · split <;> rfl
  · intro h
    rw [if_pos h]
    rfl
  · intro h
    rw [if_neg h]
    simp

/-- C7 witness: on a single running node the full four-part output, with the
hostname block, is printed. -/
theorem describe_prints_hostnames_only_when_running_witness :
    get_cluster_state_ec2 [⟨"i-1", Ec2InstState.running, "node-host-1", []⟩] =
      "running" ∧
    print_cluster_info_ec2 "demo"
        [⟨"i-1", Ec2InstState.running, "node-host-1", []⟩] =
      ["demo:",
       "  state: " ++
         get_cluster_state_ec2 [⟨"i-1", Ec2InstState.running, "node-host-1", []⟩],
       "  node-count: " ++
         toString ([⟨"i-1", Ec2InstState.running, "node-host-1", []⟩] :
           List Ec2Instance).length,
       String.intercalate "\n    - "
         ("  nodes:" ::
           ([⟨"i-1", Ec2InstState.running, "node-host-1", []⟩] :
             List Ec2Instance).map (fun i => i.publicDnsName))] := by
  refine ⟨by decide, ?_⟩
  have h := (describe_prints_hostnames_only_when_running "demo"
    [⟨"i-1", Ec2InstState.running, "node-host-1", []⟩]).2.1 (by decide)
  simpa using h

/-! ## Helper lemmas about the SSH retry loop -/

theorem ssh_loop_none_of_all_retriable (env : Nat → ConnectOutcome)
    (h : ∀ j, retriableOutcome (env j) = true) :
    ∀ fuel attempt slept, get_ssh_client_loop env fuel attempt slept = none := by
  intro fuel
  induction fuel with
  | zero => intro attempt slept; rfl
  | succ f ih =>
    intro attempt slept
    have hr := h attempt
    rcases he : env attempt with _ | _ | e | _ | s <;> rw [he] at hr
    · simp [retriableOutcome] at hr
    · simp only [get_ssh_client_loop, he, retriableOutcome, if_true]
      exact ih _ _
    · simp only [get_ssh_client_loop, he]
      rw [if_pos hr]
      exact ih _ _
    · simp only [get_ssh_client_loop, he, retriableOutcome, if_true]
      exact ih _ _
    · simp [retriableOutcome] at hr

theorem ssh_loop_success (env : Nat → ConnectOutcome) :
    ∀ n fuel attempt slept,
      (∀ j, j < n → retriableOutcome (env (attempt + j)) = true) →
      env (attempt + n) = .connected → n < fuel →
      get_ssh_client_loop env fuel attempt slept =
        some (.connectedAfter (attempt + n) (slept + 5 * n)) := by
  intro n
  induction n with
  | zero =>
    intro fuel attempt slept _ hc hf
    rcases fuel with _ | f
    · omega
    · simp only [get_ssh_client_loop]
      rw [show env attempt = .connected from by simpa using hc]
      simp
  | succ n ih =>
    intro fuel attempt slept hret hc hf
    rcases fuel with _ | f
    · omega
    · have hr0 : retriableOutcome (env attempt) = true := by
        simpa using hret 0 (by omega)
      have hstep : get_ssh_client_loop env (f + 1) attempt slept =
          get_ssh_client_loop env f (attempt + 1) (slept + 5) := by
        rcases he : env attempt with _ | _ | e | _ | s <;> rw [he] at hr0
        · simp [retriableOutcome] at hr0
        · simp [get_ssh_client_loop, he, retriableOutcome]
        · simp only [get_ssh_client_loop, he]
          rw [if_pos hr0]
        · simp [get_ssh_client_loop, he, retriableOutcome]
        · simp [retriableOutcome] at hr0
      rw [hstep]
      have := ih f (attempt + 1) (slept + 5)
        (fun j hj => by
          have := hret (j + 1) (by omega)
          simpa [Nat.add_assoc, Nat.add_comm 1 j] using this)
        (by
          have : attempt + 1 + n = attempt + (n + 1) := by omega
          rw [this]; exact hc)
        (by omega)
      rw [this]
      congr 2
      · omega
      · omega

theorem ssh_loop_raised_not_retriable (env : Nat → ConnectOutcome) :
    ∀ fuel attempt slept out,
      get_ssh_client_loop env fuel attempt slept = some (.raised out) →
      retriableOutcome out = false ∧ out ≠ .connected := by
  intro fuel
  induction fuel with
  | zero => intro attempt slept out h; cases h
  | succ f ih =>
    intro attempt slept out h
    rcases he : env attempt with _ | _ | e | _ | s <;>
      simp only [get_ssh_client_loop, he] at h
    · cases h
    · simp only [retriableOutcome, if_true] at h
      exact ih _ _ _ h
    · by_cases h61 : e = 61
      · rw [if_pos (by simp [retriableOutcome, h61])] at h
        exact ih _ _ _ h
      · rw [if_neg (by simp [retriableOutcome, h61])] at h
        injection h with h
        injection h with h
        subst h
        exact ⟨by simp [retriableOutcome, h61], by simp⟩
    · simp only [retriableOutcome, if_true] at h
      exact ih _ _ _ h
    · rw [if_neg (by simp [retriableOutcome])] at h
      injection h with h
      injection h with h
      subst h
      exact ⟨by simp [retriableOutcome], by simp⟩

/-! ## Claim C9 -/

/-- C9: the SSH connect loop of `get_ssh_client` retries with a fixed
5-second back-off and never raises for connection-refused
(`socket.error` with errno 61), timeout or authentication failures - it
retries indefinitely (for any amount of fuel the loop is still running when
every attempt fails with one of those kinds), connects after `n` retriable
failures having slept `5 * n` seconds, and whatever it raises is a failure
outside those kinds (in particular a `socket.error` whose errno is not 61,
never a timeout or an authentication failure). -/
theorem ssh_connect_retry_behaviour (env : Nat → ConnectOutcome) :
    ((∀ j, retriableOutcome (env j) = true) →
      ∀ fuel attempt slept, get_ssh_client_loop env fuel attempt slept = none) ∧
    (∀ n fuel, (∀ j, j < n → retriableOutcome (env j) = true) →
      env n = .connected → n < fuel →
      get_ssh_client_loop env fuel 0 0 = some (.connectedAfter n (5 * n))) ∧
    (∀ fuel attempt slept out,
      get_ssh_client_loop env fuel attempt slept = some (.raised out) →
      retriableOutcome out = false ∧ out ≠ .timeout ∧ out ≠ .authFail ∧
      ∀ e, out = .sockErr e → e ≠ 61) := by
  refine ⟨fun h => ssh_loop_none_of_all_retriable env h, ?_, ?_⟩
  · intro n fuel hret hc hf
    have := ssh_loop_success env n fuel 0 0
      (fun j hj => by simpa using hret j hj) (by simpa using hc) hf
    simpa using this
  · intro fuel attempt slept out h
    obtain ⟨hfalse, _⟩ := ssh_loop_raised_not_retriable env fuel attempt slept out h
    refine ⟨hfalse, ?_, ?_, ?_⟩
    · rintro rfl
      simp [retriableOutcome] at hfalse
    · rintro rfl
      simp [retriableOutcome] at hfalse
    · rintro e rfl h61
      rw [h61] at hfalse
      simp [retriableOutcome] at hfalse

/-- C9 witness: two timeouts, one connection-refused socket error and one
authentication failure followed by a successful connect yield a connection
after four retries and twenty seconds of back-off sleep. -/
theorem ssh_connect_retry_behaviour_witness :
    ((∀ j, j < 4 → retriableOutcome
        ((fun j => if j = 0 then ConnectOutcome.timeout
          else if j = 1 then ConnectOutcome.sockErr 61
          else if j = 2 then ConnectOutcome.authFail
          else if j = 3 then ConnectOutcome.timeout
          else ConnectOutcome.connected) j) = true) ∧
      (fun j => if j = 0 then ConnectOutcome.timeout
        else if j = 1 then ConnectOutcome.sockErr 61
        else if j = 2 then ConnectOutcome.authFail
        else if j = 3 then ConnectOutcome.timeout
        else ConnectOutcome.connected) 4 = ConnectOutcome.connected ∧
      4 < 10) ∧
    get_ssh_client_loop
      (fun j => if j = 0 then ConnectOutcome.timeout
        else if j = 1 then ConnectOutcome.sockErr 61
        else if j = 2 then ConnectOutcome.authFail
        else if j = 3 then ConnectOutcome.timeout
        else ConnectOutcome.connected) 10 0 0 =
      some (.connectedAfter 4 (5 * 4)) :=
  ⟨⟨by decide, by decide, by decide⟩,
    (ssh_connect_retry_behaviour _).2.1 4 10 (by decide) (by decide) (by decide)⟩

/-! ## Helper lemmas about rule authorization -/

theorem authorizeRules_no_inj (inj : SGRule → Option String) :
    ∀ (toAdd current : List SGRule), (∀ r ∈ toAdd, inj r = none) →
      authorizeRules inj current toAdd = .ok (addNewRules current toAdd) := by
  intro toAdd
  induction toAdd with
  | nil => intro current _; rfl
  | cons r rest ih =>
    intro current h
    have hr : inj r = none := h r (by simp)
    have hrest : ∀ x ∈ rest, inj x = none :=
      fun x hx => h x (List.mem_cons_of_mem _ hx)
    by_cases hm : r ∈ current
    · simp only [authorizeRules, authorizeRule, hr, if_pos hm]
      rw [ih current hrest]
      simp [addNewRules, hm]
    · simp only [authorizeRules, authorizeRule, hr, if_neg hm]
      rw [ih (current ++ [r]) hrest]
      simp [addNewRules, hm]

theorem mem_addNewRules_of_mem_current {r : SGRule} :
    ∀ (toAdd current : List SGRule), r ∈ current → r ∈ addNewRules current toAdd := by
  intro toAdd
  induction toAdd with
  | nil => intro current h; exact h
  | cons x rest ih =>
    intro current h
    by_cases hm : x ∈ current
    · simp only [addNewRules, List.foldl_cons, if_pos hm]
      exact ih current h
    · simp only [addNewRules, List.foldl_cons, if_neg hm]
      exact ih _ (List.mem_append_left _ h)

theorem mem_addNewRules_of_mem_toAdd {r : SGRule} :
    ∀ (toAdd current : List SGRule), r ∈ toAdd → r ∈ addNewRules current toAdd := by
  intro toAdd
  induction toAdd with
  | nil => intro current h; cases h
  | cons x rest ih =>
    intro current h
    rcases List.mem_cons.mp h with rfl | h
    · by_cases hm : r ∈ current
      · simp only [addNewRules, List.foldl_cons, if_pos hm]
        exact mem_addNewRules_of_mem_current _ _ hm
      · simp only [addNewRules, List.foldl_cons, if_neg hm]
        exact mem_addNewRules_of_mem_current _ _ (List.mem_append_right _ (by simp))
    · by_cases hm : x ∈ current
      · simp only [addNewRules, List.foldl_cons, if_pos hm]
        exact ih current h
      · simp only [addNewRules, List.foldl_cons, if_neg hm]
        exact ih _ h

theorem addNewRules_eq_self :
    ∀ (toAdd current : List SGRule), (∀ r ∈ toAdd, r ∈ current) →
      addNewRules current toAdd = current := by
  intro toAdd
  induction toAdd with
  | nil => intro current _; rfl
  | cons x rest ih =>
    intro current h
    have hx : x ∈ current := h x (by simp)
    simp only [addNewRules, List.foldl_cons, if_pos hx]
    exact ih current (fun r hr => h r (List.mem_cons_of_mem _ hr))

theorem authorizeRules_idempotent (inj : SGRule → Option String)
    (toAdd current : List SGRule) (h : ∀ r ∈ toAdd, inj r = none) :
    authorizeRules inj (addNewRules current toAdd) toAdd =
      .ok (addNewRules current toAdd) := by
  rw [authorizeRules_no_inj inj toAdd _ h]
  rw [addNewRules_eq_self toAdd _ (fun r hr => mem_addNewRules_of_mem_toAdd _ _ hr)]

/-! ## Claim C3 -/

/-- C3: in the rule-authorization loops of
`get_or_create_ec2_security_groups`, a provider error of the duplicate-rule
class is swallowed and iteration continues with the remaining rules (and the
provider raises it exactly when the rule is already present), while any other
authorization error propagates to the caller; consequently, absent other
provider errors, running the operation twice gives the same final rule sets,
with no net rule additions on the second call. -/
theorem security_group_rule_idempotence
    (injBase injCluster : SGRule → Option String)
    (cluster_name flintrock_client_cidr : String) (st : SGState) :
    (∀ (inj : SGRule → Option String) (current : List SGRule) (r : SGRule)
        (rest : List SGRule), inj r = none → r ∈ current →
      authorizeRules inj current (r :: rest) = authorizeRules inj current rest) ∧
    (∀ (inj : SGRule → Option String) (current : List SGRule) (r : SGRule)
        (rest : List SGRule) (code : String), inj r = some code →
      authorizeRules inj current (r :: rest) = .error (.other code)) ∧
    ((∀ r, injBase r = none) → (∀ r, injCluster r = none) →
      ∃ st', get_or_create_ec2_security_groups injBase injCluster
          cluster_name flintrock_client_cidr st = .ok st' ∧
        get_or_create_ec2_security_groups injBase injCluster
          cluster_name flintrock_client_cidr st' = .ok st') := by
  refine ⟨?_, ?_, ?_⟩
  · intro inj current r rest hinj hmem
    simp [authorizeRules, authorizeRule, hinj, hmem]
  · intro inj current r rest code hinj
    simp [authorizeRules, authorizeRule, hinj]
  · intro hB hC
    refine ⟨⟨addNewRules st.baseRules (client_rules flintrock_client_cidr),
      addNewRules st.clusterRules (cluster_rules ("flintrock-" ++ cluster_name))⟩,
      ?_, ?_⟩
    · unfold get_or_create_ec2_security_groups
      rw [authorizeRules_no_inj injBase _ _ (fun r _ => hB r)]
      rw [authorizeRules_no_inj injCluster _ _ (fun r _ => hC r)]
    · unfold get_or_create_ec2_security_groups
      rw [authorizeRules_idempotent injBase _ _ (fun r _ => hB r)]
      rw [authorizeRules_idempotent injCluster _ _ (fun r _ => hC r)]

/-- C3 witness: with no injected provider errors and initially empty rule
sets, `get_or_create_ec2_security_groups` authorizes exactly the two rule
sets, and a second run returns them unchanged. -/
theorem security_group_rule_idempotence_witness :
    get_or_create_ec2_security_groups (fun _ => none) (fun _ => none)
        "myspark" "203.0.113.7/32" ⟨[], []⟩ =
      .ok ⟨client_rules "203.0.113.7/32", cluster_rules "flintrock-myspark"⟩ ∧
    get_or_create_ec2_security_groups (fun _ => none) (fun _ => none)
        "myspark" "203.0.113.7/32"
        ⟨client_rules "203.0.113.7/32", cluster_rules "flintrock-myspark"⟩ =
      .ok ⟨client_rules "203.0.113.7/32", cluster_rules "flintrock-myspark"⟩ := by
  obtain ⟨st', h1, h2⟩ :=
    (security_group_rule_idempotence (fun _ => none) (fun _ => none)
      "myspark" "203.0.113.7/32" ⟨[], []⟩).2.2 (fun _ => rfl) (fun _ => rfl)
  have hval : get_or_create_ec2_security_groups (fun _ => none) (fun _ => none)
      "myspark" "203.0.113.7/32" ⟨[], []⟩ =
      .ok ⟨client_rules "203.0.113.7/32", cluster_rules "flintrock-myspark"⟩ := by
    rfl
  have hst : st' =
      ⟨client_rules "203.0.113.7/32", cluster_rules "flintrock-myspark"⟩ := by
    rw [hval] at h1
    injection h1 with h1
    exact h1.symm
  rw [hst] at h2
  exact ⟨hval, h2⟩

/-! ## Helper lemmas about the template scanner -/

theorem string_mk_data (s : String) : String.mk s.data = s := rfl

theorem formatScan_field_append (m : String → Option String) :
    ∀ (ks acc tail : List Char),
      (∀ c ∈ ks, c ≠ '{' ∧ c ≠ '}') →
      positionalKey (acc ++ ks) = false →
      formatScan m (.field acc) (ks ++ '}' :: tail) =
        (formatScan m .normal tail).map
          (fun t => (templateReplacement m (String.mk (acc ++ ks))).data ++ t) := by
  intro ks
  induction ks with
  | nil =>
    intro acc tail _ hpos
    simp only [List.append_nil] at hpos ⊢
    simp only [List.nil_append]
    simp [formatScan, hpos]
  | cons c ks ih =>
    intro acc tail hb hpos
    have hc := hb c (by simp)
    have hstep : formatScan m (.field acc) ((c :: ks) ++ '}' :: tail) =
        formatScan m (.field (acc ++ [c])) (ks ++ '}' :: tail) := by
      simp [formatScan, hc.1, hc.2]
    rw [List.cons_append, ← List.cons_append, hstep]
    rw [ih (acc ++ [c]) tail (fun x hx => hb x (by simp [hx]))
      (by simpa [List.append_assoc] using hpos)]
    simp [List.append_assoc]

theorem formatScan_nil (m : String → Option String) :
    formatScan m .normal [] = some [] := rfl

/-! ## Claim C8 -/

/-- C8: template rendering (`get_formatted_template`, Python `format_map`
with a `__missing__` fallback) substitutes exactly the placeholders whose
names are bound, leaves every unknown placeholder in the output verbatim as
`{key}`, and performs no recursive expansion: the substituted text is spliced
into the output as-is and scanning resumes after the closing brace of the
original template, so text introduced by a substitution is never re-scanned
(the first conjunct holds for every binding value, including values that
themselves look like placeholders). Hypotheses: the key contains no brace and
is not a Python positional field name (empty or all digits). -/
theorem template_rendering_single_pass (m : String → Option String) (key : String)
    (hb : ∀ c ∈ key.data, c ≠ '{' ∧ c ≠ '}')
    (hpos : positionalKey key.data = false) :
    (∀ tail : List Char,
      formatScan m .normal ('{' :: (key.data ++ '}' :: tail)) =
        (formatScan m .normal tail).map
          (fun t => (templateReplacement m key).data ++ t)) ∧
    (∀ v, m key = some v →
      get_formatted_template ("\x7b" ++ key ++ "\x7d") m = some v) ∧
    (m key = none →
      get_formatted_template ("\x7b" ++ key ++ "\x7d") m =
        some ("\x7b" ++ key ++ "\x7d")) := by
  have hmain : ∀ tail : List Char,
      formatScan m .normal ('{' :: (key.data ++ '}' :: tail)) =
        (formatScan m .normal tail).map
          (fun t => (templateReplacement m key).data ++ t) := by
    intro tail
    rcases hk : key.data with _ | ⟨c, ks⟩
    · rw [hk] at hpos
      simp [positionalKey] at hpos
    · have hc : c ≠ '{' ∧ c ≠ '}' := hb c (by rw [hk]; simp)
      have h1 : formatScan m .normal ('{' :: (c :: ks ++ '}' :: tail)) =
          formatScan m .sawOpen (c :: (ks ++ '}' :: tail)) := by
        simp [formatScan]
      have h2 : formatScan m .sawOpen (c :: (ks ++ '}' :: tail)) =
          formatScan m (.field [c]) (ks ++ '}' :: tail) := by
        simp [formatScan, hc.1, hc.2]
      have h3 := formatScan_field_append m ks [c] tail
        (fun x hx => hb x (by rw [hk]; simp [hx]))
        (by simpa [hk] using hpos)
      rw [h1, h2, h3]
      have hkey : String.mk ([c] ++ ks) = key := by
        show String.mk (c :: ks) = key
        rw [← hk]
      rw [hkey]
  have hdata : ("\x7b" ++ key ++ "\x7d").data = '{' :: (key.data ++ '}' :: []) := rfl
  refine ⟨hmain, ?_, ?_⟩
  · intro v hv
    unfold get_formatted_template
    rw [hdata, hmain [], formatScan_nil]
    simp [templateReplacement, hv, string_mk_data]
  · intro hv
    unfold get_formatted_template
    rw [hdata, hmain [], formatScan_nil]
    simp [templateReplacement, hv, string_mk_data]
    rw [← hdata]

/-- C8 witness: the key `spark_version` is brace-free and non-positional;
rendering `{spark_version}` with a binding substitutes it, and with no
binding the placeholder text survives verbatim. -/
theorem template_rendering_single_pass_witness :
    (∀ c ∈ ("spark_version" : String).data, c ≠ '{' ∧ c ≠ '}') ∧
    (∀ v, (fun k => if k = "spark_version" then some "1.5.0" else none) "spark_version" = some v →
      get_formatted_template ("\x7b" ++ "spark_version" ++ "\x7d")
        (fun k => if k = "spark_version" then some "1.5.0" else none) = some v) :=
  ⟨by decide,
    (template_rendering_single_pass
      (fun k => if k = "spark_version" then some "1.5.0" else none)
      "spark_version" (by decide) (by decide)).2.1⟩

/-! ## Helper lemmas about the launch trace -/

theorem waitAllRunning_sound (env : Nat → Nat → Ec2InstState) :
    ∀ fuel counts final, waitAllRunning env fuel counts = some final →
      ∀ i, i < final.length → env i (final.getD i 0) = .running := by
  intro fuel
  induction fuel with
  | zero => intro counts final h; cases h
  | succ f ih =>
    intro counts final h
    unfold waitAllRunning at h
    rcases hf : firstNotRunningIdx env counts with _ | j <;> rw [hf] at h
    · injection h with h
      subst h
      intro i hi
      have hnone := List.find?_eq_none.mp hf i (List.mem_range.mpr hi)
      simpa using hnone
    · exact ih _ _ h

theorem occursBefore_parts (pre xs mid ys post : List LaunchEvent)
    {tr : List LaunchEvent} {a b : LaunchEvent}
    (htr : tr = pre ++ xs ++ mid ++ ys ++ post)
    (ha : a ∈ xs) (hb : b ∈ ys) : occursBefore tr a b := by
  rcases List.append_of_mem ha with ⟨s₁, t₁, rfl⟩
  rcases List.append_of_mem hb with ⟨s₂, t₂, rfl⟩
  refine ⟨pre ++ s₁, t₁ ++ mid ++ s₂, t₂ ++ post, ?_⟩
  rw [htr]
  simp [List.append_assoc]

/-! ## Claim C2 -/

/-- C2: in every execution of `launch_ec2` that reaches the health checks,
(0) the wait loop only exits once every instance's observed state is
`running`, and in the trace (a) every instance's running-confirmation
precedes the construction of `ClusterInfo`; (b) every node's
`provision_ec2_node` completion (in whatever order the parallel fan-out
finishes, modelled by an arbitrary completion order `perm` covering all
nodes) precedes every module's `configure_master`; and (c) each module's
`configure_master` precedes that module's `health_check`. -/
theorem launch_ordering (num_slaves num_modules fuel : Nat)
    (env : Nat → Nat → Ec2InstState) (perm : List Nat) (tr : List LaunchEvent)
    (hperm : ∀ i, i ∈ perm ↔ i < num_slaves + 1)
    (htr : launchTrace num_slaves num_modules env fuel perm = some tr) :
    (∀ final, waitAllRunning env fuel (List.replicate (num_slaves + 1) 0) =
        some final →
      ∀ i, i < final.length → env i (final.getD i 0) = .running) ∧
    (∀ i, i < num_slaves + 1 →
      occursBefore tr (.instanceRunning i) .buildClusterInfo) ∧
    (∀ i, i < num_slaves + 1 → ∀ m, m < num_modules →
      occursBefore tr (.provisionDone i) (.configureMaster m)) ∧
    (∀ m, m < num_modules →
      occursBefore tr (.configureMaster m) (.healthCheck m)) := by
  unfold launchTrace at htr
  rcases hw : waitAllRunning env fuel (List.replicate (num_slaves + 1) 0)
    with _ | counts <;> rw [hw] at htr
  · cases htr
  · injection htr with htr
    refine ⟨fun final hfin => ?_, ?_, ?_, ?_⟩
    · have hfc : final = counts := by
        injection hfin with h
        exact h.symm
      subst hfc
      exact waitAllRunning_sound env fuel _ final hw
    · intro i hi
      refine occursBefore_parts
        [.precheckCluster, .ensureSecurityGroups,
          .runInstancesReq (num_slaves + 1), .sleepSec 10]
        ((List.range (num_slaves + 1)).map .instanceRunning)
        [.tagMaster, .tagSlaves]
        [.buildClusterInfo]
        (perm.map .provisionDone ++ [.joinAll] ++
          (List.range num_modules).flatMap
            (fun m => [.configureMaster m, .sleepSec 30, .healthCheck m]))
        ?_ ?_ ?_
      · rw [← htr]
        simp [List.append_assoc]
      · exact List.mem_map.mpr ⟨i, List.mem_range.mpr hi, rfl⟩
      · simp
    · intro i hi m hm
      refine occursBefore_parts
        ([.precheckCluster, .ensureSecurityGroups,
          .runInstancesReq (num_slaves + 1), .sleepSec 10] ++
          (List.range (num_slaves + 1)).map .instanceRunning ++
          [.tagMaster, .tagSlaves, .buildClusterInfo])
        (perm.map .provisionDone)
        [.joinAll]
        ((List.range num_modules).flatMap
          (fun m => [.configureMaster m, .sleepSec 30, .healthCheck m]))
        []
        ?_ ?_ ?_
      · rw [← htr]
        simp [List.append_assoc]
      · exact List.mem_map.mpr ⟨i, (hperm i).mpr hi, rfl⟩
      · exact List.mem_flatMap.mpr ⟨m, List.mem_range.mpr hm, by simp⟩
    · intro m hm
      rcases List.append_of_mem (List.mem_range.mpr hm) with ⟨s, t, hst⟩
      refine occursBefore_parts
        ([.precheckCluster, .ensureSecurityGroups,
          .runInstancesReq (num_slaves + 1), .sleepSec 10] ++
          (List.range (num_slaves + 1)).map .instanceRunning ++
          [.tagMaster, .tagSlaves, .buildClusterInfo] ++
          perm.map .provisionDone ++ [.joinAll] ++
          s.flatMap (fun m => [.configureMaster m, .sleepSec 30, .healthCheck m]))
        [.configureMaster m]
        [.sleepSec 30]
        [.healthCheck m]
        (t.flatMap
          (fun m => [.configureMaster m, .sleepSec 30, .healthCheck m]))
        ?_ ?_ ?_
      · rw [← htr, hst]
        simp [List.append_assoc, List.flatMap_append]
      · simp
      · simp

/-- C2 witness: a concrete two-node, one-module launch whose wait loop
succeeds immediately produces the expected trace and satisfies all three
ordering guarantees. -/
theorem launch_ordering_witness :
    (∀ i, i ∈ [0, 1] ↔ i < 1 + 1) ∧
    launchTrace 1 1 (fun _ _ => .running) 1 [0, 1] =
      some [.precheckCluster, .ensureSecurityGroups, .runInstancesReq 2,
        .sleepSec 10, .instanceRunning 0, .instanceRunning 1, .tagMaster,
        .tagSlaves, .buildClusterInfo, .provisionDone 0, .provisionDone 1,
        .joinAll, .configureMaster 0, .sleepSec 30, .healthCheck 0] ∧
    (∀ i, i < 1 + 1 →
      occursBefore
        [.precheckCluster, .ensureSecurityGroups, .runInstancesReq 2,
         .sleepSec 10, .instanceRunning 0, .instanceRunning 1, .tagMaster,
         .tagSlaves, .buildClusterInfo, .provisionDone 0, .provisionDone 1,
         .joinAll, .configureMaster 0, .sleepSec 30, .healthCheck 0]
        (.instanceRunning i) .buildClusterInfo) :=
  ⟨by intro i; simp [List.mem_cons]; omega, rfl,
    (launch_ordering 1 1 1 (fun _ _ => .running) [0, 1] _
      (by intro i; simp [List.mem_cons]; omega) rfl).2.1⟩

end Flintrock
